import Mathlib

/-!
gocelery: client, asynchronous result handle and polling loop

A shallow embedding of `gocelery.go`: `CeleryClient.Delay`, `AsyncResult.Get`,
`AsyncResult.AsyncGet` and `AsyncResult.Ready`.

Modelling conventions
* Collaborators with mutable state (the result backend, the broker, the task
  identity source) are method tables over an explicit state that every call
  threads through.
* `interface{}` values are the inductive `Value`; a Go `nil` interface is
  `Value.nil`.
* Go `error` values are `Option GoError`; `none` is the `nil` error.  An error
  keeps its provenance: one handed over by a collaborator is `external`, one
  allocated by `fmt.Errorf` in this file is `errorf`.
* Standard-library functions the code calls (`json.Unmarshal`, the `%v`
  renderings of `fmt`) are the fields of `StdLib`.
* The `select` on `time.After(timeout)` is driven by the number of polls that
  run before the timer channel becomes ready.
-/

namespace Gocelery

/-- Dynamic Go values held in an `interface{}`: the nil interface, the values
`encoding/json` decodes into an `interface{}`, Go integers and a `[]byte`. A
`float64` is kept as its IEEE-754 bit pattern. -/
inductive Value where
  | nil
  | bool (b : Bool)
  | int (i : Int)
  | float64 (bits : Nat)
  | string (s : String)
  | bytes (b : List Nat)
  | array (xs : List Value)
  | object (m : List (String × Value))

/-- Contents of a `map[string]interface{}`; the nil map is the empty list. -/
abbrev GoMap := List (String × Value)

/-- Map indexing `m[k]`: the zero value `nil` when the key is absent. -/
def GoMap.index (m : GoMap) (k : String) : Value :=
  match m.lookup k with
  | some v => v
  | none => Value.nil

/-- Go `v != nil` for an `interface{}` value. -/
def Value.neNil : Value → Bool
  | Value.nil => false
  | _ => true

/-- Go `v != lit` for an `interface{}` value against a string constant: equal
only when the dynamic type is `string` and the contents agree. -/
def Value.neString (v : Value) (lit : String) : Bool :=
  match v with
  | Value.string s => s != lit
  | _ => true

/-- An error value produced outside this file (backend, broker, encoder). -/
structure ExternalError where
  text : String

/-- Go `error` values seen by this file, by provenance. -/
inductive GoError where
  | external (e : ExternalError)
  | errorf (text : String)

/-- Method `Error()` of an error value. -/
def GoError.Error : GoError → String
  | GoError.external e => e.text
  | GoError.errorf t => t

/-- Outcome of running a Go function: a normal return or a run-time panic. -/
inductive Exec (α : Type) where
  | ret (a : α)
  | panic (msg : String)

/-- Standard-library functions used by the code. `jsonUnmarshal b` is the
content of `resMap` after `json.Unmarshal(b, &resMap)` on a nil map (its error
is dropped by the caller); `fmtDuration` and `fmtMap` are the `%v` renderings
of a `time.Duration` (nanoseconds) and of a `map[string]interface{}`. -/
structure StdLib where
  jsonUnmarshal : List Nat → GoMap
  fmtDuration : Int → String
  fmtMap : GoMap → String

/-- Interface `CeleryBackend`, as far as this file uses it: `GetResult`. -/
structure CeleryBackend (σ : Type) where
  GetResult : String → σ → (Value × Option ExternalError) × σ

/-- Interface `CeleryBroker`, as far as this file uses it: `Send`. -/
structure CeleryBroker (μ β : Type) where
  Send : μ → β → Option ExternalError × β

/-- Task and message constructors the client calls: `NewCeleryTask` (drawing a
fresh identity from a source of type `γ`), the `ID` field of a task, `Encode`
and `NewCeleryMessage`. -/
structure TaskLib (τ ε μ γ : Type) where
  NewCeleryTask : String → List Value → γ → τ × γ
  ID : τ → String
  Encode : τ → ε × Option ExternalError
  NewCeleryMessage : ε → μ

/-- AsyncResult is pending result. -/
structure AsyncResult (σ : Type) where
  taskID : String
  backend : CeleryBackend σ

/-- CeleryClient provides API for sending celery tasks. -/
structure CeleryClient (μ β σ ω : Type) where
  broker : CeleryBroker μ β
  backend : CeleryBackend σ
  worker : ω

/-- Delay gets asynchronous result. -/
def CeleryClient.Delay {τ ε μ γ β σ ω : Type} (T : TaskLib τ ε μ γ)
    (cc : CeleryClient μ β σ ω) (task : String) (args : List Value) (g : γ) (b : β) :
    (Option (AsyncResult σ) × Option GoError) × γ × β :=
  match T.NewCeleryTask task args g with
  | (celeryTask, g') =>
    match T.Encode celeryTask with
    | (_, some err) => ((none, some (GoError.external err)), g', b)
    | (encodedMessage, none) =>
      match cc.broker.Send (T.NewCeleryMessage encodedMessage) b with
      | (some err, b') => ((none, some (GoError.external err)), g', b')
      | (none, b') => ((some ⟨T.ID celeryTask, cc.backend⟩, none), g', b')

/-- AsyncGet gets actual result from redis and returns nil if not available. -/
def AsyncResult.AsyncGet {σ : Type} (L : StdLib) (ar : AsyncResult σ) (s : σ) :
    Exec (Value × Option GoError) × σ :=
  match ar.backend.GetResult ar.taskID s with
  | ((_, some err), s') => (Exec.ret (Value.nil, some (GoError.external err)), s')
  | ((Value.nil, none), s') => (Exec.ret (Value.nil, none), s')
  | ((Value.bytes b, none), s') =>
    if (GoMap.index (L.jsonUnmarshal b) "status").neString "SUCCESS" then
      (Exec.ret (Value.nil, some (GoError.errorf
        ("error response status " ++ L.fmtMap (L.jsonUnmarshal b)))), s')
    else
      (Exec.ret (GoMap.index (L.jsonUnmarshal b) "result", none), s')
  | ((_, none), s') => (Exec.panic "interface conversion: interface is not []uint8", s')

/-- Ready checks if actual result is ready. -/
def AsyncResult.Ready {σ : Type} (ar : AsyncResult σ) (s : σ) :
    (Bool × Option GoError) × σ :=
  match ar.backend.GetResult ar.taskID s with
  | ((_, some err), s') => ((false, some (GoError.external err)), s')
  | ((val, none), s') => ((val.neNil, none), s')

/-- The error built in the timeout branch of `Get`. -/
def timeoutError {σ : Type} (L : StdLib) (ar : AsyncResult σ) (timeout : Int) : GoError :=
  GoError.errorf (L.fmtDuration timeout ++ " timeout getting result for " ++ ar.taskID)

/-- Get gets actual result from redis; it blocks for period of time set by
timeout and return error if unavailable. The first argument after `timeout` is
the number of loop iterations that find the timer channel not yet ready; the
state is the backend state and the lines written to the log so far. -/
def AsyncResult.Get {σ : Type} (L : StdLib) (ar : AsyncResult σ) (timeout : Int) :
    Nat → σ → List String → Exec (Value × Option GoError) × σ × List String
  | 0, s, lg => (Exec.ret (Value.nil, some (timeoutError L ar timeout)), s, lg)
  | n + 1, s, lg =>
    match ar.AsyncGet L s with
    | (Exec.panic m, s') => (Exec.panic m, s', lg)
    | (Exec.ret (_, some err), s') =>
      AsyncResult.Get L ar timeout n s' (lg ++ ["error getting result " ++ err.Error])
    | (Exec.ret (val, none), s') =>
      if val.neNil then AsyncResult.Get L ar timeout n s' lg
      else (Exec.ret (val, none), s', lg)

/-! Section: Concrete collaborators used to exercise the definitions -/

/-- Bytes of an ASCII string. -/
def asciiBytes (s : String) : List Nat := s.toList.map Char.toNat

/-- Stored record of a task that succeeded with result 5. -/
def successRecord : List Nat :=
  asciiBytes "\x7b\"result\": 5, \"status\": \"SUCCESS\"\x7d"

/-- Stored record of a task whose handler failed with "bad input". -/
def failureRecord : List Nat :=
  asciiBytes "\x7b\"result\": \"bad input\", \"status\": \"FAILURE\"\x7d"

/-- Stored record of a successful task whose handler returned JSON null. -/
def nullRecord : List Nat :=
  asciiBytes "\x7b\"result\": null, \"status\": \"SUCCESS\"\x7d"

/-- The decoder `json.Unmarshal` restricted to the three records above; any other
input is treated as undecodable and leaves the map nil. The number 5 decodes to
the `float64` 5.0, bit pattern 0x4014000000000000. -/
def sampleUnmarshal (b : List Nat) : GoMap :=
  if b = successRecord then
    [("result", Value.float64 0x4014000000000000), ("status", Value.string "SUCCESS")]
  else if b = failureRecord then
    [("result", Value.string "bad input"), ("status", Value.string "FAILURE")]
  else if b = nullRecord then
    [("result", Value.nil), ("status", Value.string "SUCCESS")]
  else []

/-- Rendering `%v` of the values occurring in the sample records. -/
def sampleFmtValue : Value → String
  | Value.nil => "<nil>"
  | Value.bool b => if b then "true" else "false"
  | Value.int i => if i = 5 then "5" else "int"
  | Value.float64 bits => if bits = 0x4014000000000000 then "5" else "float64"
  | Value.string s => s
  | Value.bytes _ => "[]uint8"
  | Value.array _ => "[]"
  | Value.object _ => "map[]"

/-- Rendering `%v` of a map whose entries are listed in key order. -/
def sampleFmtMap (m : GoMap) : String :=
  "map[" ++ " ".intercalate (m.map fun p => p.1 ++ ":" ++ sampleFmtValue p.2) ++ "]"

/-- Rendering `%v` of the durations used below: one second and zero. -/
def sampleFmtDuration (d : Int) : String :=
  if d = 1000000000 then "1s" else if d = 0 then "0s" else "duration"

/-- Sample standard library. -/
def sampleLib : StdLib := ⟨sampleUnmarshal, sampleFmtDuration, sampleFmtMap⟩

/-- A backend that answers every lookup with the same pair and counts the
lookups it has served. -/
def constBackend (resp : Value × Option ExternalError) : CeleryBackend Nat :=
  ⟨fun _ s => (resp, s + 1)⟩

/-- A backend whose first `k` lookups fail with a store error and whose later
lookups find no record. -/
def flakyBackend (k : Nat) : CeleryBackend Nat :=
  ⟨fun _ s =>
    (if s < k then (Value.nil, some ⟨"connection refused"⟩) else (Value.nil, none), s + 1)⟩

/-- A broker that answers every send with the same error value and counts the
sends it has received. -/
def constBroker (resp : Option ExternalError) : CeleryBroker String Nat :=
  ⟨fun _ b => (resp, b + 1)⟩

/-- A task library over triples (identity, name, arguments): identities are
drawn from a counter, encoding fails exactly for the task name "unencodable". -/
def sampleTasks : TaskLib (String × String × List Value) String String Nat :=
  { NewCeleryTask := fun task args g => ((if g = 0 then "id-0" else "id-n", task, args), g + 1)
    ID := fun t => t.1
    Encode := fun t =>
      if t.2.1 = "unencodable" then ("", some ⟨"json: unsupported type"⟩) else (t.2.1, none)
    NewCeleryMessage := fun e => e }

/-- A client over a broker with a fixed answer, a backend without records and
no worker pool. -/
def sampleClient (resp : Option ExternalError) : CeleryClient String Nat Nat Unit :=
  ⟨constBroker resp, constBackend (Value.nil, none), ()⟩

/-- The handle for task "add" over a given backend. -/
def addResult (B : CeleryBackend Nat) : AsyncResult Nat := ⟨"id-0", B⟩

/-- One second as a `time.Duration`. -/
def oneSecond : Int := 1000000000

end Gocelery

namespace Gocelery

/-! Section: Auxiliary facts about the embedding -/

theorem neString_of_ne (v : Value) (lit : String) (h : v ≠ Value.string lit) :
    v.neString lit = true := by
  cases v with
  | string t =>
    have ht : t ≠ lit := fun e => h (by rw [e])
    simp [Value.neString, ht]
  | _ => rfl

theorem sample_failure_status_ne :
    GoMap.index (sampleLib.jsonUnmarshal failureRecord) "status" ≠ Value.string "SUCCESS" := by
  intro h
  have h2 : Value.string "FAILURE" = Value.string "SUCCESS" := h
  injection h2 with h3
  exact absurd h3 (by decide)

theorem neString_self (lit : String) : (Value.string lit).neString lit = false := by
  simp [Value.neString]

theorem neNil_false_iff (v : Value) : v.neNil = false ↔ v = Value.nil := by
  cases v <;> simp [Value.neNil]

theorem neNil_true_iff (v : Value) : v.neNil = true ↔ v ≠ Value.nil := by
  cases v <;> simp [Value.neNil]

theorem AsyncGet_of_store_error {σ : Type} (L : StdLib) (ar : AsyncResult σ) (s s' : σ)
    (val : Value) (err : ExternalError)
    (h : ar.backend.GetResult ar.taskID s = ((val, some err), s')) :
    ar.AsyncGet L s = (Exec.ret (Value.nil, some (GoError.external err)), s') := by
  unfold AsyncResult.AsyncGet
  rw [h]
  cases val <;> rfl

theorem AsyncGet_of_absent {σ : Type} (L : StdLib) (ar : AsyncResult σ) (s s' : σ)
    (h : ar.backend.GetResult ar.taskID s = ((Value.nil, none), s')) :
    ar.AsyncGet L s = (Exec.ret (Value.nil, none), s') := by
  unfold AsyncResult.AsyncGet
  rw [h]

theorem AsyncGet_of_success {σ : Type} (L : StdLib) (ar : AsyncResult σ) (s s' : σ)
    (b : List Nat) (h : ar.backend.GetResult ar.taskID s = ((Value.bytes b, none), s'))
    (hstatus : GoMap.index (L.jsonUnmarshal b) "status" = Value.string "SUCCESS") :
    ar.AsyncGet L s = (Exec.ret (GoMap.index (L.jsonUnmarshal b) "result", none), s') := by
  unfold AsyncResult.AsyncGet
  rw [h]
  simp [hstatus, neString_self]

theorem AsyncGet_of_non_success {σ : Type} (L : StdLib) (ar : AsyncResult σ) (s s' : σ)
    (b : List Nat) (h : ar.backend.GetResult ar.taskID s = ((Value.bytes b, none), s'))
    (hstatus : GoMap.index (L.jsonUnmarshal b) "status" ≠ Value.string "SUCCESS") :
    ar.AsyncGet L s = (Exec.ret (Value.nil, some (GoError.errorf
      ("error response status " ++ L.fmtMap (L.jsonUnmarshal b)))), s') := by
  unfold AsyncResult.AsyncGet
  rw [h]
  simp [neString_of_ne _ _ hstatus]

theorem Get_succ_panic {σ : Type} (L : StdLib) (ar : AsyncResult σ) (timeout : Int) (n : Nat)
    (s s' : σ) (lg : List String) (m : String) (h : ar.AsyncGet L s = (Exec.panic m, s')) :
    ar.Get L timeout (n + 1) s lg = (Exec.panic m, s', lg) := by
  simp [AsyncResult.Get, h]

theorem Get_succ_error {σ : Type} (L : StdLib) (ar : AsyncResult σ) (timeout : Int) (n : Nat)
    (s s' : σ) (lg : List String) (v : Value) (e : GoError)
    (h : ar.AsyncGet L s = (Exec.ret (v, some e), s')) :
    ar.Get L timeout (n + 1) s lg
      = ar.Get L timeout n s' (lg ++ ["error getting result " ++ e.Error]) := by
  simp [AsyncResult.Get, h]

theorem Get_succ_present {σ : Type} (L : StdLib) (ar : AsyncResult σ) (timeout : Int) (n : Nat)
    (s s' : σ) (lg : List String) (v : Value)
    (h : ar.AsyncGet L s = (Exec.ret (v, none), s')) (hv : v.neNil = true) :
    ar.Get L timeout (n + 1) s lg = ar.Get L timeout n s' lg := by
  simp [AsyncResult.Get, h, hv]

theorem Get_succ_absent {σ : Type} (L : StdLib) (ar : AsyncResult σ) (timeout : Int) (n : Nat)
    (s s' : σ) (lg : List String)
    (h : ar.AsyncGet L s = (Exec.ret (Value.nil, none), s')) :
    ar.Get L timeout (n + 1) s lg = (Exec.ret (Value.nil, none), s', lg) := by
  simp [AsyncResult.Get, h, Value.neNil]

/-- Every run of `Get` ends in a panic of `AsyncGet`, in `(nil, nil)`, or in
`nil` with the timeout error. -/
theorem Get_result_cases {σ : Type} (L : StdLib) (ar : AsyncResult σ) (timeout : Int) :
    ∀ (polls : Nat) (s : σ) (lg : List String),
      (∃ m, (ar.Get L timeout polls s lg).1 = Exec.panic m) ∨
      (ar.Get L timeout polls s lg).1 = Exec.ret (Value.nil, none) ∨
      (ar.Get L timeout polls s lg).1
        = Exec.ret (Value.nil, some (timeoutError L ar timeout)) := by
  intro polls
  induction polls with
  | zero =>
    intro s lg
    exact Or.inr (Or.inr rfl)
  | succ n ih =>
    intro s lg
    rcases h : ar.AsyncGet L s with ⟨r, s'⟩
    cases r with
    | panic m =>
      rw [Get_succ_panic L ar timeout n s s' lg m h]
      exact Or.inl ⟨m, rfl⟩
    | ret p =>
      rcases p with ⟨v, e⟩
      cases e with
      | some e =>
        rw [Get_succ_error L ar timeout n s s' lg v e h]
        exact ih s' _
      | none =>
        cases hv : v.neNil with
        | true =>
          rw [Get_succ_present L ar timeout n s s' lg v h hv]
          exact ih s' lg
        | false =>
          have hnil : v = Value.nil := (neNil_false_iff v).1 hv
          subst hnil
          rw [Get_succ_absent L ar timeout n s s' lg h]
          exact Or.inr (Or.inl rfl)

/-! Section: AsyncGet and Ready -/

/-- C5: when the backend returns, without error, bytes that decode to a record
whose status is the string "SUCCESS" and whose result field is `v`, `AsyncGet`
returns `(v, nil)` after that one lookup; when the store still answers with the
same bytes, a second call returns the same `(v, nil)`. -/
theorem AsyncGet_success_idempotent {σ : Type} (L : StdLib) (ar : AsyncResult σ)
    (s s1 s2 : σ) (b : List Nat) (v : Value)
    (hfirst : ar.backend.GetResult ar.taskID s = ((Value.bytes b, none), s1))
    (hagain : ar.backend.GetResult ar.taskID s1 = ((Value.bytes b, none), s2))
    (hstatus : GoMap.index (L.jsonUnmarshal b) "status" = Value.string "SUCCESS")
    (hresult : GoMap.index (L.jsonUnmarshal b) "result" = v) :
    ar.AsyncGet L s = (Exec.ret (v, none), s1) ∧
    ar.AsyncGet L s1 = (Exec.ret (v, none), s2) := by
  subst hresult
  exact ⟨AsyncGet_of_success L ar s s1 b hfirst hstatus,
    AsyncGet_of_success L ar s1 s2 b hagain hstatus⟩

theorem AsyncGet_success_idempotent_witness :
    (addResult (constBackend (Value.bytes successRecord, none))).AsyncGet sampleLib 0
      = (Exec.ret (Value.float64 0x4014000000000000, none), 1) ∧
    (addResult (constBackend (Value.bytes successRecord, none))).AsyncGet sampleLib 1
      = (Exec.ret (Value.float64 0x4014000000000000, none), 2) :=
  AsyncGet_success_idempotent sampleLib
    (addResult (constBackend (Value.bytes successRecord, none))) 0 1 2 successRecord
    (Value.float64 0x4014000000000000) rfl rfl rfl rfl

/-- C6: when the backend returns, without error, bytes whose decoded status is
anything other than the string "SUCCESS" (a failure status, no status field,
or bytes that do not decode and leave the map nil), `AsyncGet` returns a nil
value and the error "error response status " followed by the rendering of the
decoded map; it does not return the result field as a success value. -/
theorem AsyncGet_non_success_is_error {σ : Type} (L : StdLib) (ar : AsyncResult σ)
    (s s' : σ) (b : List Nat)
    (hstore : ar.backend.GetResult ar.taskID s = ((Value.bytes b, none), s')) :
    (GoMap.index (L.jsonUnmarshal b) "status" ≠ Value.string "SUCCESS" →
      ar.AsyncGet L s = (Exec.ret (Value.nil, some (GoError.errorf
        ("error response status " ++ L.fmtMap (L.jsonUnmarshal b)))), s') ∧
      ∀ v, ar.AsyncGet L s ≠ (Exec.ret (v, none), s')) ∧
    (L.jsonUnmarshal b = [] →
      ar.AsyncGet L s = (Exec.ret (Value.nil, some (GoError.errorf
        ("error response status " ++ L.fmtMap []))), s')) := by
  constructor
  · intro hstatus
    have h := AsyncGet_of_non_success L ar s s' b hstore hstatus
    refine ⟨h, ?_⟩
    intro v hv
    rw [h] at hv
    cases hv
  · intro hnil
    have hstatus : GoMap.index (L.jsonUnmarshal b) "status" ≠ Value.string "SUCCESS" := by
      rw [hnil]
      intro h
      cases h
    have h := AsyncGet_of_non_success L ar s s' b hstore hstatus
    rw [hnil] at h
    exact h

theorem AsyncGet_non_success_is_error_witness :
    (addResult (constBackend (Value.bytes failureRecord, none))).AsyncGet sampleLib 0
      = (Exec.ret (Value.nil, some (GoError.errorf
          "error response status map[result:bad input status:FAILURE]")), 1) ∧
    (addResult (constBackend (Value.bytes (asciiBytes "oops"), none))).AsyncGet sampleLib 0
      = (Exec.ret (Value.nil, some (GoError.errorf "error response status map[]")), 1) :=
  ⟨((AsyncGet_non_success_is_error sampleLib
      (addResult (constBackend (Value.bytes failureRecord, none))) 0 1 failureRecord rfl).1
      sample_failure_status_ne).1,
   (AsyncGet_non_success_is_error sampleLib
      (addResult (constBackend (Value.bytes (asciiBytes "oops"), none))) 0 1
      (asciiBytes "oops") rfl).2 rfl⟩

/-- C7: when the backend returns `(nil, nil)` for the task ID (no record,
pending), `AsyncGet` returns `(nil, nil)`: a nil value with a nil error. -/
theorem AsyncGet_pending {σ : Type} (L : StdLib) (ar : AsyncResult σ) (s s' : σ)
    (hstore : ar.backend.GetResult ar.taskID s = ((Value.nil, none), s')) :
    ar.AsyncGet L s = (Exec.ret (Value.nil, none), s') :=
  AsyncGet_of_absent L ar s s' hstore

theorem AsyncGet_pending_witness :
    (addResult (constBackend (Value.nil, none))).AsyncGet sampleLib 0
      = (Exec.ret (Value.nil, none), 1) :=
  AsyncGet_pending sampleLib (addResult (constBackend (Value.nil, none))) 0 1 rfl

/-- C8: `Ready` performs the backend lookup; it returns `(false, err)` when
`GetResult` returns a non-nil error `err`, and otherwise `(b, nil)` where `b`
is true exactly when the returned record is non-nil, whatever its content. -/
theorem Ready_reports_presence {σ : Type} (ar : AsyncResult σ) (s : σ) :
    (∀ (val : Value) (err : ExternalError) (s' : σ),
      ar.backend.GetResult ar.taskID s = ((val, some err), s') →
      ar.Ready s = ((false, some (GoError.external err)), s')) ∧
    (∀ (val : Value) (s' : σ),
      ar.backend.GetResult ar.taskID s = ((val, none), s') →
      ∃ b : Bool, ar.Ready s = ((b, none), s') ∧ (b = true ↔ val ≠ Value.nil)) := by
  constructor
  · intro val err s' h
    unfold AsyncResult.Ready
    rw [h]
  · intro val s' h
    refine ⟨val.neNil, ?_, neNil_true_iff val⟩
    unfold AsyncResult.Ready
    rw [h]

theorem Ready_reports_presence_witness :
    (addResult (flakyBackend 1)).Ready 0
      = ((false, some (GoError.external ⟨"connection refused"⟩)), 1) ∧
    (∃ b : Bool, (addResult (constBackend (Value.bytes failureRecord, none))).Ready 0
      = ((b, none), 1) ∧ (b = true ↔ Value.bytes failureRecord ≠ Value.nil)) :=
  ⟨(Ready_reports_presence (addResult (flakyBackend 1)) 0).1 Value.nil
      ⟨"connection refused"⟩ 1 rfl,
   (Ready_reports_presence (addResult (constBackend (Value.bytes failureRecord, none))) 0).2
      (Value.bytes failureRecord) 1 rfl⟩

/-! Section: Delay -/

/-- C9: `Delay` returns a nil handle and the encoder's error when encoding the
task fails, and then the broker is left untouched (`Send` is not called); after
a successful encode it returns a nil handle and the broker's error when `Send`
fails; otherwise it returns, with a nil error, the handle made of the built
task's ID and the client's backend. A nil handle with a non-nil error occurs
exactly in the two failure cases. -/
theorem Delay_outcomes {τ ε μ γ β σ ω : Type} (T : TaskLib τ ε μ γ)
    (cc : CeleryClient μ β σ ω) (task : String) (args : List Value) (g : γ) (b : β) :
    (∀ err, (T.Encode (T.NewCeleryTask task args g).1).2 = some err →
      cc.Delay T task args g b
        = ((none, some (GoError.external err)), (T.NewCeleryTask task args g).2, b)) ∧
    ((T.Encode (T.NewCeleryTask task args g).1).2 = none →
      ∀ err, (cc.broker.Send (T.NewCeleryMessage
          (T.Encode (T.NewCeleryTask task args g).1).1) b).1 = some err →
      cc.Delay T task args g b
        = ((none, some (GoError.external err)), (T.NewCeleryTask task args g).2,
            (cc.broker.Send (T.NewCeleryMessage
              (T.Encode (T.NewCeleryTask task args g).1).1) b).2)) ∧
    ((T.Encode (T.NewCeleryTask task args g).1).2 = none →
      (cc.broker.Send (T.NewCeleryMessage
          (T.Encode (T.NewCeleryTask task args g).1).1) b).1 = none →
      cc.Delay T task args g b
        = ((some ⟨T.ID (T.NewCeleryTask task args g).1, cc.backend⟩, none),
            (T.NewCeleryTask task args g).2,
            (cc.broker.Send (T.NewCeleryMessage
              (T.Encode (T.NewCeleryTask task args g).1).1) b).2)) ∧
    (((cc.Delay T task args g b).1.1 = none ∧ (cc.Delay T task args g b).1.2 ≠ none) ↔
      ((T.Encode (T.NewCeleryTask task args g).1).2 ≠ none ∨
        ((T.Encode (T.NewCeleryTask task args g).1).2 = none ∧
          (cc.broker.Send (T.NewCeleryMessage
            (T.Encode (T.NewCeleryTask task args g).1).1) b).1 ≠ none))) := by
  unfold CeleryClient.Delay
  rcases hT : T.NewCeleryTask task args g with ⟨t, g'⟩
  rcases hE : T.Encode t with ⟨enc, e⟩
  cases e with
  | some e => simp [hE]
  | none =>
    rcases hS : cc.broker.Send (T.NewCeleryMessage enc) b with ⟨r, b'⟩
    cases r with
    | some r => simp [hE, hS]
    | none => simp [hE, hS]

theorem Delay_outcomes_witness :
    (sampleClient none).Delay sampleTasks "unencodable" [] 0 0
      = ((none, some (GoError.external ⟨"json: unsupported type"⟩)), 1, 0) ∧
    (sampleClient (some ⟨"broker down"⟩)).Delay sampleTasks "add" [Value.int 2, Value.int 3] 0 0
      = ((none, some (GoError.external ⟨"broker down"⟩)), 1, 1) ∧
    (sampleClient none).Delay sampleTasks "add" [Value.int 2, Value.int 3] 0 0
      = ((some ⟨"id-0", constBackend (Value.nil, none)⟩, none), 1, 1) :=
  ⟨(Delay_outcomes sampleTasks (sampleClient none) "unencodable" [] 0 0).1
      ⟨"json: unsupported type"⟩ rfl,
   (Delay_outcomes sampleTasks (sampleClient (some ⟨"broker down"⟩)) "add"
      [Value.int 2, Value.int 3] 0 0).2.1 rfl ⟨"broker down"⟩ rfl,
   (Delay_outcomes sampleTasks (sampleClient none) "add"
      [Value.int 2, Value.int 3] 0 0).2.2.1 rfl rfl⟩

/-! Section: Get: the polling loop -/

/-- C4: a store error never ends `Get`. At a poll that finds the timer not
fired and where `GetResult` returns a non-nil error, `Get` logs the error and
goes on with the next poll; and whatever the backend, the number of polls and
the timeout, an error returned by `Get` is the timeout error built by `Get`
itself, never an error value that came from `GetResult`. -/
theorem Get_store_error_not_fatal {σ : Type} (L : StdLib) (ar : AsyncResult σ)
    (timeout : Int) :
    (∀ (n : Nat) (s s' : σ) (lg : List String) (val : Value) (err : ExternalError),
      ar.backend.GetResult ar.taskID s = ((val, some err), s') →
      ar.Get L timeout (n + 1) s lg
        = ar.Get L timeout n s' (lg ++ ["error getting result " ++ err.text])) ∧
    (∀ (polls : Nat) (s : σ) (lg : List String) (v : Value) (e : GoError),
      (ar.Get L timeout polls s lg).1 = Exec.ret (v, some e) →
      e = timeoutError L ar timeout ∧ ∀ x : ExternalError, e ≠ GoError.external x) := by
  constructor
  · intro n s s' lg val err h
    exact Get_succ_error L ar timeout n s s' lg Value.nil (GoError.external err)
      (AsyncGet_of_store_error L ar s s' val err h)
  · intro polls s lg v e h
    have he : e = timeoutError L ar timeout := by
      rcases Get_result_cases L ar timeout polls s lg with ⟨m, hm⟩ | hn | ht
      · rw [hm] at h
        cases h
      · rw [hn] at h
        cases h
      · rw [ht] at h
        cases h
        rfl
    refine ⟨he, ?_⟩
    intro x hx
    rw [he] at hx
    cases hx

theorem Get_store_error_not_fatal_witness :
    (addResult (flakyBackend 2)).Get sampleLib oneSecond (2 + 1) 0 []
      = (addResult (flakyBackend 2)).Get sampleLib oneSecond 2 1
          ([] ++ ["error getting result " ++ "connection refused"]) ∧
    (GoError.errorf "1s timeout getting result for id-0"
        = timeoutError sampleLib (addResult (flakyBackend 2)) oneSecond ∧
      ∀ x : ExternalError,
        GoError.errorf "1s timeout getting result for id-0" ≠ GoError.external x) :=
  ⟨(Get_store_error_not_fatal sampleLib (addResult (flakyBackend 2)) oneSecond).1
      2 0 1 [] Value.nil ⟨"connection refused"⟩ rfl,
   (Get_store_error_not_fatal sampleLib (addResult (flakyBackend 2)) oneSecond).2
      2 0 [] Value.nil (GoError.errorf "1s timeout getting result for id-0") rfl⟩

/-- C10: the present/absent branches of the polling loop are inverted. At a
poll that finds the timer not fired, when `AsyncGet` yields a non-nil value
with no error `Get` does not return and polls again, and when `AsyncGet`
yields a nil value with no error `Get` returns `(nil, nil)` at once; so for
every backend, number of polls and timeout, a value returned by `Get` is
nil. -/
theorem Get_branches_inverted {σ : Type} (L : StdLib) (ar : AsyncResult σ)
    (timeout : Int) :
    (∀ (n : Nat) (s s' : σ) (lg : List String) (v : Value),
      ar.AsyncGet L s = (Exec.ret (v, none), s') → v ≠ Value.nil →
      ar.Get L timeout (n + 1) s lg = ar.Get L timeout n s' lg) ∧
    (∀ (n : Nat) (s s' : σ) (lg : List String),
      ar.AsyncGet L s = (Exec.ret (Value.nil, none), s') →
      ar.Get L timeout (n + 1) s lg = (Exec.ret (Value.nil, none), s', lg)) ∧
    (∀ (polls : Nat) (s : σ) (lg : List String) (v : Value) (e : Option GoError),
      (ar.Get L timeout polls s lg).1 = Exec.ret (v, e) → v = Value.nil) := by
  refine ⟨?_, ?_, ?_⟩
  · intro n s s' lg v h hv
    exact Get_succ_present L ar timeout n s s' lg v h ((neNil_true_iff v).2 hv)
  · intro n s s' lg h
    exact Get_succ_absent L ar timeout n s s' lg h
  · intro polls s lg v e h
    rcases Get_result_cases L ar timeout polls s lg with ⟨m, hm⟩ | hn | ht
    · rw [hm] at h
      cases h
    · rw [hn] at h
      cases h
      rfl
    · rw [ht] at h
      cases h
      rfl

theorem Get_branches_inverted_witness :
    (addResult (constBackend (Value.bytes successRecord, none))).Get sampleLib oneSecond (2 + 1) 0 []
      = (addResult (constBackend (Value.bytes successRecord, none))).Get sampleLib oneSecond 2 1 [] ∧
    (addResult (constBackend (Value.nil, none))).Get sampleLib oneSecond (2 + 1) 0 []
      = (Exec.ret (Value.nil, none), 1, []) ∧
    Value.nil = Value.nil :=
  ⟨(Get_branches_inverted sampleLib
      (addResult (constBackend (Value.bytes successRecord, none))) oneSecond).1
      2 0 1 [] (Value.float64 0x4014000000000000) rfl (fun h => Value.noConfusion h),
   (Get_branches_inverted sampleLib (addResult (constBackend (Value.nil, none))) oneSecond).2.1
      2 0 1 [] rfl,
   (Get_branches_inverted sampleLib
      (addResult (constBackend (Value.bytes successRecord, none))) oneSecond).2.2
      3 0 [] Value.nil (some (GoError.errorf "1s timeout getting result for id-0")) rfl⟩

/-- A handle whose backend answers every lookup with a non-success record gets
the timeout error from `Get`, for every number of polls. -/
theorem Get_of_non_success_store {σ : Type} (L : StdLib) (ar : AsyncResult σ) (timeout : Int)
    (hfail : ∀ s, ∃ b, (ar.backend.GetResult ar.taskID s).1 = (Value.bytes b, none) ∧
      GoMap.index (L.jsonUnmarshal b) "status" ≠ Value.string "SUCCESS") :
    ∀ (polls : Nat) (s : σ) (lg : List String),
      (ar.Get L timeout polls s lg).1
        = Exec.ret (Value.nil, some (timeoutError L ar timeout)) := by
  intro polls
  induction polls with
  | zero =>
    intro s lg
    rfl
  | succ n ih =>
    intro s lg
    obtain ⟨b, hb, hst⟩ := hfail s
    have h : ar.backend.GetResult ar.taskID s
        = ((Value.bytes b, none), (ar.backend.GetResult ar.taskID s).2) := Prod.ext hb rfl
    rw [Get_succ_error L ar timeout n s _ lg Value.nil _
      (AsyncGet_of_non_success L ar s _ b h hst)]
    exact ih _ _

/-- C1: a store that always holds the success record with result 5. `AsyncGet`
reads `(5, nil)`, yet `Get` with a one-second timeout whose timer fires after
three polls performs all three lookups and returns nil with the timeout error
instead of `(5, nil)`. -/
theorem Get_success_record_times_out :
    (addResult (constBackend (Value.bytes successRecord, none))).AsyncGet sampleLib 0
      = (Exec.ret (Value.float64 0x4014000000000000, none), 1) ∧
    (addResult (constBackend (Value.bytes successRecord, none))).Get sampleLib oneSecond 3 0 []
      = (Exec.ret (Value.nil, some (GoError.errorf "1s timeout getting result for id-0")),
          3, []) :=
  ⟨rfl, rfl⟩

/-- C2 as stated fails: over a store that always holds the failure record, with
the timer not fired at the first poll, `Get` returns the timeout error and not
the task-failure error produced by `AsyncGet`. -/
theorem Get_failure_record_counterexample :
    (∀ s, ((addResult (constBackend (Value.bytes failureRecord, none))).backend.GetResult
        "id-0" s).1 = (Value.bytes failureRecord, none)) ∧
    GoMap.index (sampleLib.jsonUnmarshal failureRecord) "status" = Value.string "FAILURE" ∧
    ((addResult (constBackend (Value.bytes failureRecord, none))).AsyncGet sampleLib 0).1
      = Exec.ret (Value.nil, some (GoError.errorf
          "error response status map[result:bad input status:FAILURE]")) ∧
    ((addResult (constBackend (Value.bytes failureRecord, none))).Get sampleLib oneSecond 1 0 []).1
      = Exec.ret (Value.nil, some (GoError.errorf "1s timeout getting result for id-0")) ∧
    ((addResult (constBackend (Value.bytes failureRecord, none))).Get sampleLib oneSecond 1 0 []).1
      ≠ ((addResult (constBackend (Value.bytes failureRecord, none))).AsyncGet sampleLib 0).1 := by
  refine ⟨fun _ => rfl, rfl, rfl, rfl, ?_⟩
  intro h
  have h2 : (Exec.ret (Value.nil, some (GoError.errorf "1s timeout getting result for id-0")) :
      Exec (Value × Option GoError))
      = Exec.ret (Value.nil, some (GoError.errorf
          "error response status map[result:bad input status:FAILURE]")) := h
  simp at h2

/-- C2, amended: when the backend answers every lookup, without error, with a
record whose status is not "SUCCESS", `Get` does not end at a poll that finds
the timer not fired: it logs the task-failure error of `AsyncGet` and polls
again; when the timer fires it returns a nil value with the timeout error. -/
theorem Get_failure_record_times_out {σ : Type} (L : StdLib) (ar : AsyncResult σ)
    (timeout : Int)
    (hfail : ∀ s, ∃ b, (ar.backend.GetResult ar.taskID s).1 = (Value.bytes b, none) ∧
      GoMap.index (L.jsonUnmarshal b) "status" ≠ Value.string "SUCCESS")
    (polls : Nat) (s : σ) (lg : List String) :
    (∃ b, (ar.backend.GetResult ar.taskID s).1 = (Value.bytes b, none) ∧
      ar.Get L timeout (polls + 1) s lg
        = ar.Get L timeout polls (ar.backend.GetResult ar.taskID s).2
            (lg ++ ["error getting result " ++
              ("error response status " ++ L.fmtMap (L.jsonUnmarshal b))])) ∧
    (ar.Get L timeout polls s lg).1
      = Exec.ret (Value.nil, some (timeoutError L ar timeout)) := by
  refine ⟨?_, Get_of_non_success_store L ar timeout hfail polls s lg⟩
  obtain ⟨b, hb, hst⟩ := hfail s
  have h : ar.backend.GetResult ar.taskID s
      = ((Value.bytes b, none), (ar.backend.GetResult ar.taskID s).2) := Prod.ext hb rfl
  exact ⟨b, hb, Get_succ_error L ar timeout polls s _ lg Value.nil _
    (AsyncGet_of_non_success L ar s _ b h hst)⟩

theorem Get_failure_record_times_out_witness :
    (∃ b, ((constBackend (Value.bytes failureRecord, none)).GetResult "id-0" 0).1
        = (Value.bytes b, none) ∧
      (addResult (constBackend (Value.bytes failureRecord, none))).Get sampleLib oneSecond (1 + 1) 0 []
        = (addResult (constBackend (Value.bytes failureRecord, none))).Get sampleLib oneSecond 1
            ((constBackend (Value.bytes failureRecord, none)).GetResult "id-0" 0).2
            ([] ++ ["error getting result " ++
              ("error response status " ++ sampleLib.fmtMap (sampleLib.jsonUnmarshal b))])) ∧
    ((addResult (constBackend (Value.bytes failureRecord, none))).Get sampleLib oneSecond 1 0 []).1
      = Exec.ret (Value.nil, some (GoError.errorf "1s timeout getting result for id-0")) :=
  Get_failure_record_times_out sampleLib
    (addResult (constBackend (Value.bytes failureRecord, none))) oneSecond
    (fun _ => ⟨failureRecord, rfl, sample_failure_status_ne⟩) 1 0 []

/-- C3: a store that never holds a record. With the timer not fired at the
first poll, `Get` returns `(nil, nil)` after a single lookup and without
waiting for the timer, instead of the timeout error. -/
theorem Get_pending_returns_nil_nil :
    (addResult (constBackend (Value.nil, none))).Get sampleLib oneSecond 3 0 []
      = (Exec.ret (Value.nil, none), 1, []) ∧
    (addResult (constBackend (Value.nil, none))).Get sampleLib oneSecond 1 0 []
      = (Exec.ret (Value.nil, none), 1, []) :=
  ⟨rfl, rfl⟩

end Gocelery
